import Mathlib

/-!
Shallow embedding of the ETL_Dashboard transformation core
(`backend/services/cleaning.py`, `masterbom_rules.py`, `status_rules.py`,
`storage.py`) and proofs about the claims of its specification.

Modelling conventions:
* A pandas cell is either `NaN` (missing) or a string (`Cell`); `str(NaN)`
  stringifies to `"nan"` as in Python.
* Python `str` primitives (`strip`, `upper`, `lower`, the regex classes
  `\s`, `[A-Za-z0-9]`) are modelled on ASCII text by the `py*` functions
  below; unicode-specific behaviour outside ASCII is out of modelled scope.
* `pd.to_datetime(...)` success on a single value is modelled by
  `parseISODate`, which accepts `YYYY-MM-DD` strings within the pandas
  `Timestamp` year range; other input formats pandas may accept are out of
  modelled scope.  Where a claim does not depend on the concrete date
  grammar the parser is passed as an explicit parameter.
-/

namespace ETL

/-! ### Python string primitives (ASCII scope) -/

/-- Python regex `\s` / `str.strip` whitespace on ASCII: space, tab, CR, LF,
vertical tab, form feed. -/
def pyIsSpace (c : Char) : Bool :=
  c == ' ' || c == '\t' || c == '\r' || c == '\n' || c == '\x0b' || c == '\x0c'

/-- ASCII lowercase letter `a`-`z` (regex `[a-z]`). -/
def isAsciiLower (c : Char) : Bool := 97 ≤ c.toNat && c.toNat ≤ 122

/-- ASCII uppercase letter `A`-`Z` (regex `[A-Z]`). -/
def isAsciiUpper (c : Char) : Bool := 65 ≤ c.toNat && c.toNat ≤ 90

/-- ASCII digit `0`-`9` (regex `[0-9]`). -/
def isAsciiDigit (c : Char) : Bool := 48 ≤ c.toNat && c.toNat ≤ 57

/-- Python `str.upper` on one ASCII character. -/
def pyUpperChar (c : Char) : Char :=
  if isAsciiLower c then Char.ofNat (c.toNat - 32) else c

/-- Python `str.lower` on one ASCII character. -/
def pyLowerChar (c : Char) : Char :=
  if isAsciiUpper c then Char.ofNat (c.toNat + 32) else c

/-- Python `str.strip()` on a character list. -/
def pyStripL (l : List Char) : List Char :=
  ((l.dropWhile pyIsSpace).reverse.dropWhile pyIsSpace).reverse

/-- Python `str.strip()`. -/
def pyStrip (s : String) : String := ⟨pyStripL s.data⟩

/-- Python `str.upper()`. -/
def pyUpper (s : String) : String := ⟨s.data.map pyUpperChar⟩

/-- Python `str.lower()`. -/
def pyLower (s : String) : String := ⟨s.data.map pyLowerChar⟩

/-- Does the list start with the given pattern? -/
def listStarts (pat : List Char) (l : List Char) : Bool :=
  match pat, l with
  | [], _ => true
  | _ :: _, [] => false
  | a :: as, b :: bs => a == b && listStarts as bs

/-- Does the pattern occur as a contiguous sublist? -/
def listContains (l : List Char) (pat : List Char) : Bool :=
  match l with
  | [] => pat.isEmpty
  | _ :: t => listStarts pat l || listContains t pat

/-- Python `needle in haystack` substring test. -/
def containsSub (haystack needle : String) : Bool :=
  listContains haystack.data needle.data

/-! ### Cells: pandas scalar values restricted to strings and NaN -/

/-- A pandas cell of the modelled tables: missing (`NaN`) or a string. -/
inductive Cell where
  | na : Cell
  | str (s : String) : Cell
deriving DecidableEq, Repr

/-- Python `str(value)`: `str(float('nan')) = "nan"`. -/
def cellToStr : Cell → String
  | .na => "nan"
  | .str s => s

/-- `pd.isna` on a cell. -/
def Cell.isNA : Cell → Bool
  | .na => true
  | .str _ => false

/-! ### `cleaning.clean_id` (cleaning.py lines 13-39) -/

/-- Character class kept by `re.sub(r'[^A-Za-z0-9\s\-_]', '', s)`:
letters, digits, whitespace, hyphen, underscore. -/
def keepChar (c : Char) : Bool :=
  isAsciiLower c || isAsciiUpper c || isAsciiDigit c || pyIsSpace c || c == '-' || c == '_'

/-- Character class of `re.sub(r'[\s_]+', ' ', s)`: whitespace or underscore. -/
def isWsU (c : Char) : Bool := pyIsSpace c || c == '_'

/-- `re.sub(r'[\s_]+', ' ', s)`: each maximal run of whitespace/underscore
characters becomes a single space.  `inRun` records whether the previous
character belonged to the current run. -/
def collapseAux (inRun : Bool) : List Char → List Char
  | [] => []
  | c :: rest =>
    if isWsU c then
      if inRun then collapseAux true rest
      else ' ' :: collapseAux true rest
    else c :: collapseAux false rest

/-- `re.sub(r'[\s_]+', ' ', s)` on a character list. -/
def collapseWsU (l : List Char) : List Char := collapseAux false l

/-- `cleaning.clean_id` on a string value: strip, drop characters outside
`[A-Za-z0-9\s\-_]`, collapse whitespace/underscore runs to one space,
uppercase, strip again. -/
def cleanIdStr (s : String) : String :=
  ⟨pyStripL ((collapseWsU ((pyStripL s.data).filter keepChar)).map pyUpperChar)⟩

/-- `cleaning.clean_id` on a cell: `pd.isna` values map to `""`, everything
else is stringified and cleaned. -/
def cleanId (c : Cell) : String :=
  match c with
  | .na => ""
  | .str s => cleanIdStr s

/-- The character classes the cleaned identifier may contain: uppercase
ASCII letters, digits, the space, the hyphen. -/
def allowedOut (c : Char) : Bool :=
  isAsciiUpper c || isAsciiDigit c || c == ' ' || c == '-'

/-! ### ISO date parsing (model of `pd.to_datetime` success on one value) -/

/-- A calendar date. -/
structure YMD where
  year : ℕ
  month : ℕ
  day : ℕ
deriving DecidableEq, Repr

/-- Gregorian leap year. -/
def isLeap (y : ℕ) : Bool := (y % 4 == 0 && y % 100 != 0) || y % 400 == 0

/-- Days in a month. -/
def daysInMonth (y m : ℕ) : ℕ :=
  if m == 2 then (if isLeap y then 29 else 28)
  else if m == 4 || m == 6 || m == 9 || m == 11 then 30
  else 31

/-- Numeric value of a digit list (most significant first). -/
def digitsToNat (l : List Char) : ℕ :=
  l.foldl (fun acc c => 10 * acc + (c.toNat - 48)) 0

/-- Models `pd.to_datetime(value, errors='coerce')` succeeding on a single
string: an ISO `YYYY-MM-DD` string denoting a valid calendar date inside the
pandas `Timestamp` year range (we accept years 1678-2261, which lie strictly
inside `Timestamp.min ... Timestamp.max`).  Other date formats accepted by
pandas are outside the modelled input domain. -/
def parseISODate (s : String) : Option YMD :=
  match s.data with
  | [y1, y2, y3, y4, '-', m1, m2, '-', d1, d2] =>
    if [y1, y2, y3, y4, m1, m2, d1, d2].all isAsciiDigit then
      let y := digitsToNat [y1, y2, y3, y4]
      let m := digitsToNat [m1, m2]
      let d := digitsToNat [d1, d2]
      if 1678 ≤ y && y ≤ 2261 && 1 ≤ m && m ≤ 12 && 1 ≤ d && d ≤ daysInMonth y m
      then some ⟨y, m, d⟩ else none
    else none
  | _ => none

/-- `pd.to_datetime` on a cell (`NaN` coerces to `NaT`). -/
def parseDateCell (c : Cell) : Option YMD :=
  match c with
  | .na => none
  | .str s => parseISODate s

/-! ### Calendar arithmetic for the derived date fields -/

/-- Days between 0000-03-01 and the given date (month shifted so March is
month 0; standard civil-calendar formula). -/
def daysFromCivil (dt : YMD) : ℕ :=
  let y := if dt.month ≤ 2 then dt.year - 1 else dt.year
  let m := if dt.month ≤ 2 then dt.month + 9 else dt.month - 3
  365 * y + y / 4 - y / 100 + y / 400 + (153 * m + 2) / 5 + (dt.day - 1)

/-- Python `date.weekday()`: Monday = 0 ... Sunday = 6. -/
def pyWeekday (dt : YMD) : ℕ := (daysFromCivil dt + 2) % 7

/-- 1-based day of the year. -/
def dayOfYear (dt : YMD) : ℕ :=
  dt.day + ((List.range (dt.month - 1)).map (fun i => daysInMonth dt.year (i + 1))).sum

/-- Weekday of 31 December used by the ISO week-count rule. -/
def isoP (y : ℕ) : ℕ := (y + y / 4 - y / 100 + y / 400) % 7

/-- Number of ISO weeks in a year (52 or 53). -/
def isoWeeksInYear (y : ℕ) : ℕ :=
  52 + (if isoP y == 4 || isoP (y - 1) == 3 then 1 else 0)

/-- Python `date.isocalendar().week`. -/
def isoWeek (dt : YMD) : ℕ :=
  let wd := pyWeekday dt + 1
  let w := (dayOfYear dt + 10 - wd) / 7
  if w = 0 then isoWeeksInYear (dt.year - 1)
  else if w > isoWeeksInYear dt.year then 1
  else w

/-- Pandas `Timestamp.quarter`. -/
def quarterOf (m : ℕ) : ℕ := (m + 2) / 3

/-- Python `strftime('%B')`. -/
def monthName (m : ℕ) : String :=
  (["January", "February", "March", "April", "May", "June", "July",
    "August", "September", "October", "November", "December"]).getD (m - 1) ""

/-- Python `strftime('%A')` from the Monday-based weekday index. -/
def dayName (wd : ℕ) : String :=
  (["Monday", "Tuesday", "Wednesday", "Thursday", "Friday", "Saturday",
    "Sunday"]).getD wd ""

/-! ### `cleaning.create_dim_dates` (cleaning.py lines 86-134) -/

/-- One row of the `dim_dates` table. -/
structure DimRow where
  date : YMD
  role : String
  year : ℕ
  month : ℕ
  day : ℕ
  quarter : ℕ
  week : ℕ
  weekday : ℕ
  month_name : String
  day_name : String
deriving DecidableEq, Repr

/-- The candidate row emitted for one parsed date of one source column. -/
def mkDimRow (dt : YMD) (role : String) : DimRow :=
  { date := dt, role := role, year := dt.year, month := dt.month,
    day := dt.day, quarter := quarterOf dt.month, week := isoWeek dt,
    weekday := pyWeekday dt, month_name := monthName dt.month,
    day_name := dayName (pyWeekday dt) }

/-- `drop_duplicates(subset=['date', 'role'])`: keep the first row for every
`(date, role)` pair. -/
def dedupDimRows (seen : List (YMD × String)) : List DimRow → List DimRow
  | [] => []
  | r :: rest =>
    if seen.contains (r.date, r.role) then dedupDimRows seen rest
    else r :: dedupDimRows ((r.date, r.role) :: seen) rest

/-- `cleaning.create_dim_dates`: for every parseable value of every series
emit a candidate row tagged with the series role, concatenate, and drop
duplicate `(date, role)` pairs keeping the first occurrence; when nothing
parses anywhere, the result is the empty table. -/
def createDimDates (dateColumns : List (List Cell)) (columnNames : List String) :
    List DimRow :=
  let allDates := (dateColumns.zip columnNames).flatMap
    (fun p => (p.1.filterMap parseDateCell).map (fun dt => mkDimRow dt p.2))
  if allDates.isEmpty then [] else dedupDimRows [] allDates

/-! ### `MasterBOMProcessor._identify_columns` (masterbom_rules.py lines 84-118)

The working DataFrame's column-name list (already stripped by
`_clean_column_names`) determines the identifier column and the project
(plant) columns. -/

/-- Locate the ID column: first column whose stripped upper-cased name equals
the upper-cased configured name; fall back to the first column (with a
warning) when none matches.  `none` models the `IndexError` raised by
`columns[0]` on a table with no columns at all. -/
def findIdColumn (cols : List String) (idCol : String) : Option String :=
  match cols.find? (fun c => pyUpper (pyStrip c) == pyUpper idCol) with
  | some c => some c
  | none => cols.head?

/-- `_identify_columns`: the project columns are
`columns[id_idx + 1 : desc_idx]` where `desc_idx` is the position of the
first column after the ID column whose lower-cased name contains both
`"item"` and `"desc"`, or `len(columns)` when no such column exists. -/
def identifyColumns (cols : List String) (idCol : String) :
    Option (String × List String) :=
  match findIdColumn cols idCol with
  | none => none
  | some idc =>
    let idIdx := cols.indexOf idc
    let after := cols.drop (idIdx + 1)
    match after.findIdx? (fun c =>
        containsSub (pyLower c) "item" && containsSub (pyLower c) "desc") with
    | some j => some (idc, (cols.take (idIdx + 1 + j)).drop (idIdx + 1))
    | none => some (idc, after)

/-- The plant-column rule exactly as the specification words it, with the
description-marker substring as a parameter: the columns strictly between
the identifier column (at `idIdx`) and the first subsequent column whose
name contains (case-insensitively) both `"item"` and `marker`; if no such
column exists, all columns after the identifier column. -/
def specPlantColumns (cols : List String) (idIdx : ℕ) (marker : String) :
    List String :=
  let after := cols.drop (idIdx + 1)
  match after.findIdx? (fun c =>
      containsSub (pyLower c) "item" && containsSub (pyLower c) marker) with
  | some j => after.take j
  | none => after

/-! ### `MasterBOMProcessor._create_plant_item_status` and helpers
(masterbom_rules.py lines 176-256)

At the point where `_create_plant_item_status` runs, the working DataFrame
carries the identifier column together with `part_id_raw` (string cast) and
`part_id_std` (`clean_id`), plus the plant columns.  A `PartRow` models one
row of that DataFrame restricted to the columns the melt reads: the
identifier cell and the plant cells (aligned with the plant-column list). -/

structure PartRow where
  idCell : Cell
  plantCells : List Cell
deriving DecidableEq, Repr

/-- `df['part_id_raw'] = df[id_column].astype(str)`. -/
def partIdRaw (r : PartRow) : String := cellToStr r.idCell

/-- `df['part_id_std'] = df[id_column].apply(clean_id)`. -/
def partIdStd (r : PartRow) : String := cleanId r.idCell

/-- `MasterBOMProcessor._classify_status`: upper-case and strip the
stringified raw value, then map `X`/`D`/`0`/empty-ish to the four classes. -/
def classifyStatus (v : Cell) : String :=
  let raw := pyUpper (pyStrip (cellToStr v))
  if raw == "X" then "active"
  else if raw == "D" then "inactive"
  else if raw == "0" then "duplicate"
  else if raw == "" || raw == "NAN" || raw == "NONE" then "new"
  else "new"

/-- `MasterBOMProcessor._check_duplicate`: a melted row is a confirmed
duplicate when its class is `duplicate` and its `part_id_std` occurs on more
than one row of the working DataFrame. -/
def checkDuplicate (rows : List PartRow) (statusClass : String) (pid : String) :
    Bool :=
  if statusClass == "duplicate" then
    decide (1 < rows.countP (fun r => partIdStd r == pid))
  else false

/-- One melted `(part, plant)` record (`pd.melt` output row). -/
structure MRow where
  part_id_std : String
  part_id_raw : String
  idCell : Cell
  project_plant : String
  raw_status : Cell
deriving DecidableEq, Repr

/-- `pd.melt(df, id_vars=..., value_vars=project_columns, ...)`: one record
per (plant column, source row), column-major as pandas produces it. -/
def meltRows (plantCols : List String) (rows : List PartRow) : List MRow :=
  plantCols.enum.flatMap (fun jp =>
    rows.map (fun r =>
      { part_id_std := partIdStd r, part_id_raw := partIdRaw r,
        idCell := r.idCell, project_plant := jp.2,
        raw_status := r.plantCells.getD jp.1 .na }))

/-- One row of the final `plant_item_status` table. -/
structure SRow where
  part_id_std : String
  part_id_raw : String
  idCell : Cell
  project_plant : String
  raw_status : Cell
  status_class : String
  is_duplicate : Bool
  is_new : Bool
  notes : Option String
  n_active : ℕ
  n_inactive : ℕ
  n_new : ℕ
  n_duplicate : ℕ
deriving DecidableEq, Repr

/-- Count of melted records of one part carrying one status class
(`_calculate_plant_counts`: `groupby('part_id_std')['status_class']
.value_counts().unstack(fill_value=0)` read off at key `pid`, class
`cls`). -/
def countClass (melted : List MRow) (pid cls : String) : ℕ :=
  melted.countP (fun m => m.part_id_std == pid && classifyStatus m.raw_status == cls)

/-- `MasterBOMProcessor._create_plant_item_status`: melt the plant columns,
classify each record, confirm duplicates against the working DataFrame, set
`is_new`, and join the per-part per-class counts back onto every record (the
`merge(plant_counts, on='part_id_std', how='left')` assigns to each record
the counts computed for its own `part_id_std`; the groupby keys are exactly
the `part_id_std` values of the melted records, so the left join always
finds its key). -/
def createPlantItemStatus (plantCols : List String) (rows : List PartRow) :
    List SRow :=
  if plantCols.isEmpty then []
  else
    let melted := meltRows plantCols rows
    melted.map (fun m =>
      let cls := classifyStatus m.raw_status
      { part_id_std := m.part_id_std, part_id_raw := m.part_id_raw,
        idCell := m.idCell, project_plant := m.project_plant,
        raw_status := m.raw_status, status_class := cls,
        is_duplicate := checkDuplicate rows cls m.part_id_std,
        is_new := cls == "new", notes := none,
        n_active := countClass melted m.part_id_std "active",
        n_inactive := countClass melted m.part_id_std "inactive",
        n_new := countClass melted m.part_id_std "new",
        n_duplicate := countClass melted m.part_id_std "duplicate" })

/-! ### `cleaning.detect_date_columns` (cleaning.py lines 244-290) -/

/-- The fixed name patterns (all literal words, so `re.search` is a
substring test on the lower-cased name). -/
def datePatterns : List String :=
  ["date", "time", "approved", "promised", "created", "updated",
   "modified", "sop", "milestone"]

/-- `cleaning.detect_date_columns` over a table given as a list of
`(column name, column values)` pairs.  `parses` models per-element success
of `pd.to_datetime(..., errors='coerce')`.  A column is appended when its
lower-cased name contains one of the patterns, its sample of the first 10
non-null values is non-empty, and the fraction of sample values that parse
is strictly greater than 0.5. -/
def detectOneColumn (parses : String → Bool) (col : String × List Cell) :
    Option String :=
  let colLower := pyLower col.1
  if datePatterns.any (fun p => containsSub colLower p) then
    let sample := (col.2.filter (fun c => !c.isNA)).take 10
    if 0 < sample.length then
      let valid := sample.countP (fun c => parses (cellToStr c))
      if (1 : ℚ) / 2 < (valid : ℚ) / (sample.length : ℚ) then some col.1
      else none
    else none
  else none

/-- `cleaning.detect_date_columns` over the whole column list. -/
def detectDateColumns (parses : String → Bool) (df : List (String × List Cell)) :
    List String :=
  df.filterMap (detectOneColumn parses)

/-- The detection rule exactly as the specification words it, with the
threshold comparison as a parameter (`strict = false` reads "at least 50%",
`strict = true` reads "strictly more than 50%"). -/
def specDetectOne (strict : Bool) (parses : String → Bool)
    (col : String × List Cell) : Option String :=
  let colLower := pyLower col.1
  let sample := (col.2.filter (fun c => !c.isNA)).take 10
  let valid := sample.countP (fun c => parses (cellToStr c))
  let ratioOk : Bool :=
    if strict then decide ((1 : ℚ) / 2 < (valid : ℚ) / (sample.length : ℚ))
    else decide ((1 : ℚ) / 2 ≤ (valid : ℚ) / (sample.length : ℚ))
  if datePatterns.any (fun p => containsSub colLower p)
      && decide (0 < sample.length) && ratioOk then
    some col.1
  else none

/-- The specification's detection rule over the whole column list. -/
def specDetectDateColumns (strict : Bool) (parses : String → Bool)
    (df : List (String × List Cell)) : List String :=
  df.filterMap (specDetectOne strict parses)

/-! ### `StatusProcessor._parse_percentage_values` (status_rules.py
lines 164-199) -/

/-- Decimal-literal parsing, modelling Python `float(str)` on the inputs the
status sheet carries: optional surrounding whitespace, optional sign, digits
with an optional single decimal point (at least one digit overall).
Exponent notation, `inf`/`nan` literals and underscore separators are
outside the modelled input domain. -/
def pyFloat (s : String) : Option ℚ :=
  let t := pyStripL s.data
  let (sign, body) : ℚ × List Char :=
    match t with
    | '+' :: r => (1, r)
    | '-' :: r => (-1, r)
    | r => (1, r)
  let intPart := body.takeWhile isAsciiDigit
  let rest := body.dropWhile isAsciiDigit
  match rest with
  | [] =>
    if intPart.isEmpty then none
    else some (sign * digitsToNat intPart)
  | '.' :: frac =>
    if frac.all isAsciiDigit && !(intPart.isEmpty && frac.isEmpty) then
      some (sign * ((digitsToNat intPart : ℚ)
        + (digitsToNat frac : ℚ) / (10 : ℚ) ^ frac.length))
    else none
  | _ => none

/-- The keyword fallback tables of `parse_value`. -/
def fullKeywords : List String := ["complete", "done", "finished", "100"]

def zeroKeywords : List String := ["none", "n/a", "na", "not available", "0"]

/-- `parse_value` inside `_parse_percentage_values`: `None` for missing or
blank values; otherwise remove every `%` character
(`val_str.replace('%', '')`), try a numeric parse (values above 1 are
divided by 100, values at most 1 pass through), and on parse failure fall
back to the keyword tables. -/
def parseValue (v : Cell) : Option ℚ :=
  match v with
  | .na => none
  | .str s =>
    let valStr := pyStrip s
    if valStr == "" then none
    else
      let cleaned : String := ⟨valStr.data.filter (fun c => c != '%')⟩
      match pyFloat cleaned with
      | some q => if 1 < q then some (q / 100) else some q
      | none =>
        let lower := pyLower cleaned
        if fullKeywords.contains lower then some 1
        else if zeroKeywords.contains lower then some 0
        else none

/-- The percentage rule exactly as the claim words it: strip a single
*trailing* `%` sign, attempt the numeric parse (above 1 divided by 100, at
most 1 unchanged), and on failure use the keyword tables. -/
def specParsePercentTrailing (s : String) : Option ℚ :=
  let valStr := pyStrip s
  let cleaned : String :=
    match valStr.data.getLast? with
    | some '%' => ⟨valStr.data.dropLast⟩
    | _ => valStr
  match pyFloat cleaned with
  | some q => if 1 < q then some (q / 100) else some q
  | none =>
    let lower := pyLower cleaned
    if fullKeywords.contains lower then some 1
    else if zeroKeywords.contains lower then some 0
    else none

/-- The percentage rule amended to what the code does with the `%` signs:
remove *every* `%` character before the numeric parse. -/
def specParsePercentAll (s : String) : Option ℚ :=
  let valStr := pyStrip s
  let cleaned : String := ⟨valStr.data.filter (fun c => c != '%')⟩
  match pyFloat cleaned with
  | some q => if 1 < q then some (q / 100) else some q
  | none =>
    let lower := pyLower cleaned
    if fullKeywords.contains lower then some 1
    else if zeroKeywords.contains lower then some 0
    else none

/-! ### `DataStorage.save_all_formats` (storage.py lines 24-186)

The writes go to the filesystem; we model each underlying write attempt by
an environment of failure flags (which table's CSV write raises, which
table's Parquet write raises, which table's `to_sql` call raises) and the
byte sizes reported by `stat()`.  Each helper wraps its body in
`try/except` and returns `[]` on failure, which we embed with `Except`
caught at the helper boundary. -/

/-- One table handed to the writer, with its name (the dict key, hence the
names are unique in any real call) and its number of rows; `df.empty` is
modelled as `rows = 0`. -/
structure NamedTable where
  name : String
  rows : ℕ
deriving DecidableEq, Repr

/-- The artifact metadata returned for one written file
(`ArtifactInfo`; the path is the processed folder joined with the name and
the byte size comes from `stat()`, both supplied by the environment). -/
structure Artifact where
  name : String
  format : String
  size_bytes : ℕ
  row_count : ℕ
deriving DecidableEq, Repr

/-- Which underlying write attempts raise, and the byte sizes the
filesystem reports for successful writes. -/
structure WriteEnv where
  csvRaises : String → Bool
  parquetRaises : String → Bool
  sqlToSqlRaises : String → Bool
  sizeOf : String → ℕ

/-- Body of `_save_csv` up to the `except` handler. -/
def attemptCsv (env : WriteEnv) (t : NamedTable) : Except String Artifact :=
  if env.csvRaises t.name then .error "csv write failed"
  else .ok ⟨t.name ++ ".csv", "CSV", env.sizeOf (t.name ++ ".csv"), t.rows⟩

/-- `_save_csv`: the `try/except` returns `[]` on failure. -/
def saveCsv (env : WriteEnv) (t : NamedTable) : List Artifact :=
  match attemptCsv env t with
  | .ok a => [a]
  | .error _ => []

/-- Body of `_save_parquet` up to the `except` handler. -/
def attemptParquet (env : WriteEnv) (t : NamedTable) : Except String Artifact :=
  if env.parquetRaises t.name then .error "parquet write failed"
  else .ok ⟨t.name ++ ".parquet", "Parquet", env.sizeOf (t.name ++ ".parquet"), t.rows⟩

/-- `_save_parquet`: the `try/except` returns `[]` on failure. -/
def saveParquet (env : WriteEnv) (t : NamedTable) : List Artifact :=
  match attemptParquet env t with
  | .ok a => [a]
  | .error _ => []

/-- The `to_sql` loop inside `_save_sqlite`: empty tables are skipped, and a
raising `to_sql` call propagates (there is no handler inside the loop). -/
def sqliteLoop (env : WriteEnv) : List NamedTable → Except String Unit
  | [] => .ok ()
  | t :: rest =>
    if t.rows == 0 then sqliteLoop env rest
    else if env.sqlToSqlRaises t.name then .error "to_sql failed"
    else sqliteLoop env rest

/-- `_save_sqlite`: write every non-empty table into the one database file;
any failure inside is caught at the block boundary and yields `[]`.  The
reported row count sums the rows of *all* tables of the mapping. -/
def saveSqlite (env : WriteEnv) (tables : List NamedTable) : List Artifact :=
  match sqliteLoop env tables with
  | .ok _ => [⟨"etl.sqlite", "SQLite", env.sizeOf "etl.sqlite",
      (tables.map (fun t => t.rows)).sum⟩]
  | .error _ => []

/-- `DataStorage.save_all_formats`: for each non-empty table append the CSV
artifacts then the Parquet artifacts, then append the consolidated SQLite
artifact. -/
def saveAllFormats (env : WriteEnv) (tables : List NamedTable) : List Artifact :=
  (tables.flatMap (fun t =>
    if t.rows == 0 then [] else saveCsv env t ++ saveParquet env t))
  ++ saveSqlite env tables

/-- The artifact list the specification's contract describes: every
non-empty table contributes its CSV artifact exactly when its CSV write
succeeds and its Parquet artifact exactly when its Parquet write succeeds,
independently of every other write; the consolidated database artifact is
present exactly when none of the non-empty tables' `to_sql` calls fails;
no failure escapes the writer. -/
def specArtifacts (env : WriteEnv) (tables : List NamedTable) : List Artifact :=
  (tables.flatMap (fun t =>
    if t.rows == 0 then []
    else
      (if env.csvRaises t.name then []
       else [⟨t.name ++ ".csv", "CSV", env.sizeOf (t.name ++ ".csv"), t.rows⟩])
      ++
      (if env.parquetRaises t.name then []
       else [⟨t.name ++ ".parquet", "Parquet",
         env.sizeOf (t.name ++ ".parquet"), t.rows⟩])))
  ++
  (if tables.any (fun t => !(t.rows == 0) && env.sqlToSqlRaises t.name) then []
   else [⟨"etl.sqlite", "SQLite", env.sizeOf "etl.sqlite",
     (tables.map (fun t => t.rows)).sum⟩])

/-- The status-classification table as the specification words it, applied
to the already upper-cased/trimmed raw value: `X` → active, `D` → inactive,
`0` → duplicate, empty/`NAN`/`NONE` → new, anything else → new. -/
def specStatusMap (u : String) : String :=
  if u = "X" then "active"
  else if u = "D" then "inactive"
  else if u = "0" then "duplicate"
  else if u = "" ∨ u = "NAN" ∨ u = "NONE" then "new"
  else "new"

/-!
## Theorems

Helper lemmas first, then one theorem per claim (with its witness or
counterexample).
-/

/-- Every row of `plant_item_status` arises from one melted record, with the
derived fields computed from it. -/
theorem mem_plantItemStatus {plantCols : List String} {rows : List PartRow}
    {r : SRow} (h : r ∈ createPlantItemStatus plantCols rows) :
    ∃ m ∈ meltRows plantCols rows,
      r = { part_id_std := m.part_id_std, part_id_raw := m.part_id_raw,
            idCell := m.idCell, project_plant := m.project_plant,
            raw_status := m.raw_status,
            status_class := classifyStatus m.raw_status,
            is_duplicate := checkDuplicate rows (classifyStatus m.raw_status)
              m.part_id_std,
            is_new := classifyStatus m.raw_status == "new", notes := none,
            n_active := countClass (meltRows plantCols rows) m.part_id_std "active",
            n_inactive := countClass (meltRows plantCols rows) m.part_id_std "inactive",
            n_new := countClass (meltRows plantCols rows) m.part_id_std "new",
            n_duplicate := countClass (meltRows plantCols rows) m.part_id_std "duplicate" } := by
  unfold createPlantItemStatus at h
  split at h
  · simp at h
  · obtain ⟨m, hm, hr⟩ := List.mem_map.mp h
    exact ⟨m, hm, hr.symm⟩

/-- `_classify_status` agrees with the specification's classification table
applied to the upper-cased stripped stringified raw value. -/
theorem classifyStatus_eq_spec (v : Cell) :
    classifyStatus v = specStatusMap (pyUpper (pyStrip (cellToStr v))) := by
  unfold classifyStatus specStatusMap
  simp only [beq_iff_eq, Bool.or_eq_true, or_assoc]

/-- C3 (amended): the plant columns are exactly the columns strictly between
the identifier column and the first subsequent column whose name contains
(case-insensitively) both "item" and "desc" — the marker substring is
"desc", not "description" — and all columns after the identifier column when
no such column exists. -/
theorem c3_plant_columns_rule (cols : List String) (idCol idc : String)
    (pcs : List String) (h : identifyColumns cols idCol = some (idc, pcs)) :
    pcs = specPlantColumns cols (cols.indexOf idc) "desc" := by
  simp only [identifyColumns] at h
  split at h
  · exact absurd h (by simp)
  · split at h
    case _ c heq j hj =>
      simp only [Option.some.injEq, Prod.mk.injEq] at h
      obtain ⟨rfl, rfl⟩ := h
      simp only [specPlantColumns, hj, List.take_drop]
    case _ c heq hj =>
      simp only [Option.some.injEq, Prod.mk.injEq] at h
      obtain ⟨rfl, rfl⟩ := h
      simp only [specPlantColumns, hj]

/-- C3 witness: on the table `["ID", "P1", "Item Desc", "P2"]` with
identifier `"ID"` the rule yields exactly `["P1"]`. -/
theorem c3_plant_columns_rule_witness :
    (["P1"] : List String) =
      specPlantColumns ["ID", "P1", "Item Desc", "P2"]
        ((["ID", "P1", "Item Desc", "P2"] : List String).indexOf "ID") "desc" :=
  c3_plant_columns_rule ["ID", "P1", "Item Desc", "P2"] "ID" "ID" ["P1"] (by decide)

/-- C3 counterexample: with the marker substring "description" (as the claim
states it) the rule disagrees with the code on a column named "Item Desc":
the code stops at "Item Desc" and returns `["P1"]`, while the claim's rule
finds no column containing "description" and returns everything after the
identifier column. -/
theorem c3_counterexample :
    ¬ (∀ (cols : List String) (idCol idc : String) (pcs : List String),
        identifyColumns cols idCol = some (idc, pcs) →
        pcs = specPlantColumns cols (cols.indexOf idc) "description") := by
  intro hall
  have h := hall ["ID", "P1", "Item Desc", "P2"] "ID" "ID" ["P1"] (by decide)
  exact absurd h (by decide)

/-- C5: every `plant_item_status` row's `status_class` is the
specification's classification table applied to the upper-cased stripped
stringified raw cell value. -/
theorem c5_status_classification (plantCols : List String) (rows : List PartRow)
    (r : SRow) (h : r ∈ createPlantItemStatus plantCols rows) :
    r.status_class = specStatusMap (pyUpper (pyStrip (cellToStr r.raw_status))) := by
  obtain ⟨m, _, rfl⟩ := mem_plantItemStatus h
  exact classifyStatus_eq_spec m.raw_status

/-- C5 witness: a part whose single plant cell is `"X"` gets
`status_class = "active"` (Scenario A). -/
theorem c5_status_classification_witness :
    ({ part_id_std := "A1", part_id_raw := "A1", idCell := Cell.str "A1",
       project_plant := "Plant A", raw_status := Cell.str "X",
       status_class := "active", is_duplicate := false, is_new := false,
       notes := none, n_active := 1, n_inactive := 0, n_new := 0,
       n_duplicate := 0 } : SRow).status_class
      = specStatusMap (pyUpper (pyStrip (cellToStr (Cell.str "X")))) :=
  c5_status_classification ["Plant A"] [⟨Cell.str "A1", [Cell.str "X"]⟩] _ (by decide)

/-- C10: in every `plant_item_status` row, `is_new` equals
`status_class == "new"`. -/
theorem c10_is_new_derived (plantCols : List String) (rows : List PartRow)
    (r : SRow) (h : r ∈ createPlantItemStatus plantCols rows) :
    r.is_new = (r.status_class == "new") := by
  obtain ⟨m, _, rfl⟩ := mem_plantItemStatus h
  rfl

/-- C10 witness, at a concrete one-row one-plant table. -/
theorem c10_is_new_derived_witness :
    ({ part_id_std := "A", part_id_raw := "A", idCell := Cell.str "A",
       project_plant := "P1", raw_status := Cell.str "0",
       status_class := "duplicate", is_duplicate := false, is_new := false,
       notes := none, n_active := 0, n_inactive := 0, n_new := 0,
       n_duplicate := 1 } : SRow).is_new
      = (({ part_id_std := "A", part_id_raw := "A", idCell := Cell.str "A",
            project_plant := "P1", raw_status := Cell.str "0",
            status_class := "duplicate", is_duplicate := false, is_new := false,
            notes := none, n_active := 0, n_inactive := 0, n_new := 0,
            n_duplicate := 1 } : SRow).status_class == "new") :=
  c10_is_new_derived ["P1"] [⟨Cell.str "A", [Cell.str "0"]⟩] _ (by decide)

/-- C4: a `plant_item_status` row has `is_duplicate = true` exactly when its
`status_class` is `"duplicate"` and its `part_id_std` occurs on more than
one row of the source parts table; a `"duplicate"`-classified row whose part
occurs once keeps the class but gets `is_duplicate = false`. -/
theorem c4_duplicate_confirmation (plantCols : List String) (rows : List PartRow)
    (r : SRow) (h : r ∈ createPlantItemStatus plantCols rows) :
    r.is_duplicate = true ↔
      (r.status_class = "duplicate"
        ∧ 1 < rows.countP (fun pr => partIdStd pr == r.part_id_std)) := by
  obtain ⟨m, _, rfl⟩ := mem_plantItemStatus h
  show checkDuplicate rows (classifyStatus m.raw_status) m.part_id_std = true ↔ _
  unfold checkDuplicate
  by_cases hc : classifyStatus m.raw_status = "duplicate" <;>
    simp [hc]

/-- C4 witness: Scenario B with a single occurrence of the part — the cell
`"0"` classifies as `duplicate` yet `is_duplicate` stays `false` because the
identifier occurs on only one row. -/
theorem c4_duplicate_confirmation_witness :
    (({ part_id_std := "A", part_id_raw := "A", idCell := Cell.str "A",
        project_plant := "P1", raw_status := Cell.str "0",
        status_class := "duplicate", is_duplicate := false, is_new := false,
        notes := none, n_active := 0, n_inactive := 0, n_new := 0,
        n_duplicate := 1 } : SRow).is_duplicate = true ↔
      (({ part_id_std := "A", part_id_raw := "A", idCell := Cell.str "A",
          project_plant := "P1", raw_status := Cell.str "0",
          status_class := "duplicate", is_duplicate := false, is_new := false,
          notes := none, n_active := 0, n_inactive := 0, n_new := 0,
          n_duplicate := 1 } : SRow).status_class = "duplicate"
        ∧ 1 < ([⟨Cell.str "A", [Cell.str "0"]⟩] : List PartRow).countP
            (fun pr => partIdStd pr == "A"))) :=
  c4_duplicate_confirmation ["P1"] [⟨Cell.str "A", [Cell.str "0"]⟩] _ (by decide)

/-- For a non-empty sample, the float comparison `valid / len > 0.5` is the
integer comparison `len < 2 * valid` (exact: the fraction can never round
across the representable value 0.5 for samples of at most 10 values). -/
theorem ratio_gt_half_iff (v l : ℕ) (hl : 0 < l) :
    ((1 : ℚ) / 2 < (v : ℚ) / (l : ℚ)) ↔ l < 2 * v := by
  rw [div_lt_div_iff₀ (by norm_num) (by exact_mod_cast hl), one_mul,
    mul_comm ((v : ℚ)) 2]
  exact_mod_cast Iff.rfl

/-- Non-strict variant of `ratio_gt_half_iff`. -/
theorem ratio_ge_half_iff (v l : ℕ) (hl : 0 < l) :
    ((1 : ℚ) / 2 ≤ (v : ℚ) / (l : ℚ)) ↔ l ≤ 2 * v := by
  rw [div_le_div_iff₀ (by norm_num) (by exact_mod_cast hl), one_mul,
    mul_comm ((v : ℚ)) 2]
  exact_mod_cast Iff.rfl

/-- Executable characterization of the per-column detector. -/
theorem detectOneColumn_eq (parses : String → Bool) (col : String × List Cell) :
    detectOneColumn parses col =
      (if datePatterns.any (fun p => containsSub (pyLower col.1) p)
          && decide (0 < ((col.2.filter (fun c => !c.isNA)).take 10).length)
          && decide (((col.2.filter (fun c => !c.isNA)).take 10).length
            < 2 * ((col.2.filter (fun c => !c.isNA)).take 10).countP
                (fun c => parses (cellToStr c)))
       then some col.1 else none) := by
  simp only [detectOneColumn]
  set sample := (col.2.filter (fun c => !c.isNA)).take 10 with hs
  set valid := sample.countP (fun c => parses (cellToStr c)) with hv
  by_cases h1 : datePatterns.any (fun p => containsSub (pyLower col.1) p) = true
  · by_cases h2 : 0 < sample.length
    · by_cases h3 : sample.length < 2 * valid
      · rw [if_pos h1, if_pos h2,
          if_pos ((ratio_gt_half_iff valid sample.length h2).mpr h3)]
        simp [h1, h2, h3]
      · have h4 : ¬ ((1 : ℚ) / 2 < (valid : ℚ) / (sample.length : ℚ)) :=
          fun hc => h3 ((ratio_gt_half_iff valid sample.length h2).mp hc)
        rw [if_pos h1, if_pos h2, if_neg h4]
        simp [h1, h2, h3]
    · simp [h1, h2]
  · simp [h1]

/-- Executable characterization of the specification's per-column rule at
the non-strict ("at least 50%") threshold. -/
theorem specDetectOne_eq (parses : String → Bool) (col : String × List Cell) :
    specDetectOne false parses col =
      (if datePatterns.any (fun p => containsSub (pyLower col.1) p)
          && decide (0 < ((col.2.filter (fun c => !c.isNA)).take 10).length)
          && decide (((col.2.filter (fun c => !c.isNA)).take 10).length
            ≤ 2 * ((col.2.filter (fun c => !c.isNA)).take 10).countP
                (fun c => parses (cellToStr c)))
       then some col.1 else none) := by
  simp only [specDetectOne, Bool.false_eq_true, if_false]
  set sample := (col.2.filter (fun c => !c.isNA)).take 10 with hs
  set valid := sample.countP (fun c => parses (cellToStr c)) with hv
  by_cases h2 : 0 < sample.length
  · rw [decide_eq_decide.mpr (ratio_ge_half_iff valid sample.length h2)]
  · simp [h2]

/-- C2 (code-bug evidence): the detector equals the specification's rule
read with a *strict* more-than-50% threshold, and on a column named
`"SOP Date"` whose first-10 sample parses at exactly 50% the code does not
flag the column while the claim's at-least-50% reading does (the code's own
comment says "At least 50% valid dates" while the comparison is
`valid_ratio > 0.5`). -/
theorem c2_date_detection_threshold :
    (∀ (parses : String → Bool) (df : List (String × List Cell)),
        detectDateColumns parses df = specDetectDateColumns true parses df)
    ∧ detectDateColumns (fun s => (parseISODate s).isSome)
        [("SOP Date", [Cell.str "2024-01-15", Cell.str "not a date"])] = []
    ∧ specDetectDateColumns false (fun s => (parseISODate s).isSome)
        [("SOP Date", [Cell.str "2024-01-15", Cell.str "not a date"])]
      = ["SOP Date"] := by
  refine ⟨fun parses df => ?_, ?_, ?_⟩
  · unfold detectDateColumns specDetectDateColumns
    congr 1
    funext col
    simp only [detectOneColumn, specDetectOne, if_true]
    by_cases h1 : datePatterns.any (fun p => containsSub (pyLower col.1) p) = true
    · by_cases h2 : 0 < ((col.2.filter (fun c => !c.isNA)).take 10).length
      · by_cases h3 : (1 : ℚ) / 2 <
          ((((col.2.filter (fun c => !c.isNA)).take 10).countP
            (fun c => parses (cellToStr c))) : ℚ)
            / ((((col.2.filter (fun c => !c.isNA)).take 10).length) : ℚ)
        · simp [h1, h2, h3, ite_and]
        · simp [h1, h2, h3, ite_and]
      · simp [h1, h2, ite_and]
    · simp [h1, ite_and]
  · simp only [detectDateColumns, List.filterMap_cons, List.filterMap_nil,
      detectOneColumn_eq]
    decide
  · simp only [specDetectDateColumns, List.filterMap_cons, List.filterMap_nil,
      specDetectOne_eq]
    decide

/-- `parse_value` on the plain number `"85"`. -/
theorem parseValue_85 : parseValue (Cell.str "85") = some ((17 : ℚ) / 20) := by
  have h : parseValue (Cell.str "85")
      = (if 1 < ((1 : ℚ) * ((digitsToNat ['8', '5'] : ℕ) : ℚ))
         then some ((1 : ℚ) * ((digitsToNat ['8', '5'] : ℕ) : ℚ) / 100)
         else some ((1 : ℚ) * ((digitsToNat ['8', '5'] : ℕ) : ℚ))) := rfl
  have hd : digitsToNat ['8', '5'] = 85 := by decide
  rw [h, hd]
  norm_num

/-- `parse_value` on `"%85"`: the leading `%` sign is removed too, so the
numeric parse succeeds and yields `0.85`. -/
theorem parseValue_pct85 : parseValue (Cell.str "%85") = some ((17 : ℚ) / 20) := by
  have h : parseValue (Cell.str "%85")
      = (if 1 < ((1 : ℚ) * ((digitsToNat ['8', '5'] : ℕ) : ℚ))
         then some ((1 : ℚ) * ((digitsToNat ['8', '5'] : ℕ) : ℚ) / 100)
         else some ((1 : ℚ) * ((digitsToNat ['8', '5'] : ℕ) : ℚ))) := rfl
  have hd : digitsToNat ['8', '5'] = 85 := by decide
  rw [h, hd]
  norm_num

/-- The claim's trailing-only rule leaves `"%85"` unparseable. -/
theorem specTrailing_pct85 : specParsePercentTrailing "%85" = none := by decide

/-- C6 (amended): `parse_value` removes *every* `%` character (not only a
trailing one) before the numeric parse; values above 1 are divided by 100,
values at most 1 pass through, and on parse failure the keyword tables
apply; missing values map to null; `"85"` yields `0.85` (Scenario C). -/
theorem c6_parse_percentage :
    (∀ s : String, parseValue (Cell.str s) = specParsePercentAll s)
    ∧ parseValue Cell.na = none
    ∧ parseValue (Cell.str "85") = some ((17 : ℚ) / 20) := by
  refine ⟨fun s => ?_, rfl, parseValue_85⟩
  by_cases h : pyStrip s = ""
  · simp only [parseValue, specParsePercentAll, h]
    decide
  · simp only [parseValue, specParsePercentAll]
    rw [if_neg (by simpa using h)]

/-- C6 counterexample: on `"%85"` the code returns `0.85` while the claim's
strip-a-trailing-`%` algorithm returns null, so the claim as stated is
false. -/
theorem c6_counterexample :
    ¬ (∀ s : String, parseValue (Cell.str s) = specParsePercentTrailing s) := by
  intro hall
  have h := hall "%85"
  rw [parseValue_pct85, specTrailing_pct85] at h
  exact Option.noConfusion h

/-- The `to_sql` loop fails exactly when some non-empty table's write
raises. -/
theorem sqliteLoop_eq (env : WriteEnv) (ts : List NamedTable) :
    sqliteLoop env ts =
      (if ts.any (fun t => !(t.rows == 0) && env.sqlToSqlRaises t.name)
       then .error "to_sql failed" else .ok ()) := by
  induction ts with
  | nil => rfl
  | cons t rest ih =>
    simp only [sqliteLoop, List.any_cons]
    by_cases h0 : t.rows == 0
    · simp [h0, ih]
    · by_cases hr : env.sqlToSqlRaises t.name <;> simp [h0, hr, ih]

/-- C9: whatever subset of write attempts fails, the writer returns (it
never propagates an exception), each non-empty table's CSV artifact is
present exactly when that table's CSV write succeeds, its Parquet artifact
exactly when that Parquet write succeeds — independent of every other table
and format — and the consolidated database artifact is present exactly when
no non-empty table's `to_sql` call fails. -/
theorem c9_storage_isolation (env : WriteEnv) (tables : List NamedTable) :
    saveAllFormats env tables = specArtifacts env tables := by
  unfold saveAllFormats specArtifacts
  congr 1
  · congr 1
    funext t
    by_cases h0 : t.rows == 0
    · simp [h0]
    · by_cases hc : env.csvRaises t.name <;>
        by_cases hp : env.parquetRaises t.name <;>
        simp [saveCsv, attemptCsv, saveParquet, attemptParquet, h0, hc, hp]
  · unfold saveSqlite
    rw [sqliteLoop_eq]
    by_cases ha : tables.any (fun t => !(t.rows == 0) && env.sqlToSqlRaises t.name) <;>
      simp [ha]

/-- A row surviving deduplication carries a key that was not yet seen. -/
theorem mem_dedupDimRows_key {r : DimRow} :
    ∀ (l : List DimRow) (seen : List (YMD × String)), r ∈ dedupDimRows seen l →
      seen.contains (r.date, r.role) = false := by
  intro l
  induction l with
  | nil => intro seen h; simp [dedupDimRows] at h
  | cons a rest ih =>
    intro seen h
    simp only [dedupDimRows] at h
    by_cases hc : seen.contains (a.date, a.role)
    · rw [if_pos hc] at h
      exact ih seen h
    · rw [if_neg hc] at h
      rcases List.mem_cons.mp h with rfl | hbelong
      · simpa using hc
      · have h2 := ih _ hbelong
        simp only [List.contains_cons, Bool.or_eq_false_iff] at h2
        exact h2.2

/-- Keep-first deduplication leaves pairwise distinct `(date, role)`
keys. -/
theorem dedupDimRows_pairwise (l : List DimRow) :
    ∀ seen, List.Pairwise (fun a b => ¬(a.date = b.date ∧ a.role = b.role))
      (dedupDimRows seen l) := by
  induction l with
  | nil => intro seen; simp [dedupDimRows]
  | cons a rest ih =>
    intro seen
    simp only [dedupDimRows]
    by_cases hc : seen.contains (a.date, a.role)
    · rw [if_pos hc]; exact ih seen
    · rw [if_neg hc]
      refine List.Pairwise.cons (fun b hb => ?_) (ih _)
      have h2 := mem_dedupDimRows_key _ _ hb
      simp only [List.contains_cons, Bool.or_eq_false_iff] at h2
      intro ⟨hd, hr⟩
      exact absurd (by simp [hd, hr] : ((b.date, b.role) == (a.date, a.role)) = true)
        (by simp [h2.1])

/-- C8: no two `dim_dates` rows share the same `(date, role)` pair; when no
value of any series parses the builder returns the empty table instead of
failing; and one date observed under two roles yields two rows
(Scenario E). -/
theorem c8_dim_dates_dedup :
    (∀ (cols : List (List Cell)) (names : List String),
      List.Pairwise (fun a b => ¬(a.date = b.date ∧ a.role = b.role))
        (createDimDates cols names))
    ∧ (∀ (cols : List (List Cell)) (names : List String),
        (∀ s ∈ cols, ∀ c ∈ s, parseDateCell c = none) →
        createDimDates cols names = [])
    ∧ (createDimDates [[Cell.str "2024-01-15"], [Cell.str "2024-01-15"]]
        ["SOP Date", "Approved Date"]).length = 2 := by
  refine ⟨fun cols names => ?_, fun cols names hnone => ?_, by decide⟩
  · unfold createDimDates
    by_cases he : ((cols.zip names).flatMap
        (fun p => (p.1.filterMap parseDateCell).map (fun dt => mkDimRow dt p.2))).isEmpty
    · simp [he]
    · simp only [he, if_false, Bool.false_eq_true]
      exact dedupDimRows_pairwise _ []
  · unfold createDimDates
    have hall : (cols.zip names).flatMap
        (fun p => (p.1.filterMap parseDateCell).map (fun dt => mkDimRow dt p.2)) = [] := by
      rw [List.flatMap_eq_nil_iff]
      intro p hp
      have h1 : p.1 ∈ cols := (List.of_mem_zip hp).1
      have h2 : p.1.filterMap parseDateCell = [] := by
        rw [List.filterMap_eq_nil_iff]
        exact fun c hc => hnone p.1 h1 c hc
      rw [h2, List.map_nil]
    simp [hall]

/-- C8 witness: a series whose single value does not parse yields the empty
dimension table. -/
theorem c8_dim_dates_dedup_witness :
    createDimDates [[Cell.str "hello"]] ["X"] = [] :=
  c8_dim_dates_dedup.2.1 [[Cell.str "hello"]] ["X"] (by decide)

/-- `_classify_status` always yields one of the four classes. -/
theorem classify_total (v : Cell) :
    classifyStatus v = "active" ∨ classifyStatus v = "inactive"
      ∨ classifyStatus v = "duplicate" ∨ classifyStatus v = "new" := by
  unfold classifyStatus
  dsimp only
  split_ifs <;> simp

/-- The four per-class counts of one part partition its melted records. -/
theorem countClass_sum (melted : List MRow) (pid : String) :
    countClass melted pid "active" + countClass melted pid "inactive"
      + countClass melted pid "new" + countClass melted pid "duplicate"
    = melted.countP (fun m => m.part_id_std == pid) := by
  induction melted with
  | nil => rfl
  | cons m rest ih =>
    unfold countClass at ih ⊢
    simp only [List.countP_cons]
    by_cases hp : m.part_id_std == pid
    · rcases classify_total m.raw_status with hc | hc | hc | hc <;>
        simp [hp, hc] <;> omega
    · simp [hp]
      omega

/-- Counting over a `flatMap` whose pieces all contribute the same count. -/
theorem countP_flatMap_const {α β : Type} (g : α → List β) (p : β → Bool)
    (c : ℕ) (l : List α) (hg : ∀ a, (g a).countP p = c) :
    (l.flatMap g).countP p = l.length * c := by
  induction l with
  | nil => simp
  | cons a rest ih =>
    simp [List.flatMap_cons, List.countP_append, hg a, ih, Nat.succ_mul]
    omega

/-- Each plant column contributes one melted record per source row, so one
part's melted records number `#plant columns * #source rows of that
part`. -/
theorem countP_meltRows (plantCols : List String) (rows : List PartRow)
    (pid : String) :
    (meltRows plantCols rows).countP (fun m => m.part_id_std == pid)
      = plantCols.length * rows.countP (fun r => partIdStd r == pid) := by
  unfold meltRows
  rw [countP_flatMap_const _ _ (rows.countP (fun r => partIdStd r == pid))]
  · simp
  · intro jp
    rw [List.countP_map]
    rfl

/-- C1 (amended): the four counters are identical across all
`plant_item_status` rows sharing one `part_id_std`, and their sum equals the
number of plant columns *times the number of source rows carrying that
`part_id_std`* (the number of plant columns exactly when the part occurs on
a single source row). -/
theorem c1_plant_count_invariant (plantCols : List String) (rows : List PartRow)
    (r r' : SRow) (h : r ∈ createPlantItemStatus plantCols rows)
    (h' : r' ∈ createPlantItemStatus plantCols rows)
    (hpid : r'.part_id_std = r.part_id_std) :
    (r'.n_active = r.n_active ∧ r'.n_inactive = r.n_inactive
      ∧ r'.n_new = r.n_new ∧ r'.n_duplicate = r.n_duplicate)
    ∧ r.n_active + r.n_inactive + r.n_new + r.n_duplicate
        = plantCols.length * rows.countP (fun pr => partIdStd pr == r.part_id_std) := by
  obtain ⟨m, hm, rfl⟩ := mem_plantItemStatus h
  obtain ⟨m', hm', rfl⟩ := mem_plantItemStatus h'
  simp only at hpid ⊢
  rw [hpid]
  refine ⟨⟨rfl, rfl, rfl, rfl⟩, ?_⟩
  rw [countClass_sum, countP_meltRows]

/-- C1 witness, on a one-row one-plant table. -/
theorem c1_plant_count_invariant_witness :
    ((({ part_id_std := "A1", part_id_raw := "A1", idCell := Cell.str "A1",
         project_plant := "Plant A", raw_status := Cell.str "X",
         status_class := "active", is_duplicate := false, is_new := false,
         notes := none, n_active := 1, n_inactive := 0, n_new := 0,
         n_duplicate := 0 } : SRow).n_active = 1 ∧ (0 : ℕ) = 0 ∧ (0 : ℕ) = 0
        ∧ (0 : ℕ) = 0)
    ∧ 1 + 0 + 0 + 0
        = (["Plant A"] : List String).length
            * ([⟨Cell.str "A1", [Cell.str "X"]⟩] : List PartRow).countP
                (fun pr => partIdStd pr == "A1")) :=
  c1_plant_count_invariant ["Plant A"] [⟨Cell.str "A1", [Cell.str "X"]⟩] _ _
    (by decide) (by decide) rfl

/-- C1 counterexample: a parts table whose identifier occurs on two rows
with a single plant column — every `plant_item_status` row of that part has
counter sum 2, not 1 (the number of plant columns). -/
theorem c1_counterexample :
    ¬ (∀ r ∈ createPlantItemStatus ["P1"]
        [⟨Cell.str "A", [Cell.str "X"]⟩, ⟨Cell.str "A", [Cell.str "X"]⟩],
        r.n_active + r.n_inactive + r.n_new + r.n_duplicate
          = (["P1"] : List String).length) := by
  decide

/-- `Char.toNat` is injective. -/
theorem charToNat_inj {c d : Char} (h : c.toNat = d.toNat) : c = d := by
  refine Char.eq_of_val_eq (UInt32.eq_of_toBitVec_eq ?_)
  simp only [Char.toNat, UInt32.toNat] at h
  exact BitVec.eq_of_toNat_eq h

/-- `Char.ofNat` round-trips on small code points. -/
theorem toNat_ofNat_small {m : ℕ} (h : m < 55296) : (Char.ofNat m).toNat = m := by
  have hv : Nat.isValidChar m := Or.inl h
  simp [Char.ofNat, hv, Char.ofNatAux, Char.toNat, UInt32.toNat]

theorem isAsciiLower_iff {c : Char} :
    isAsciiLower c = true ↔ 97 ≤ c.toNat ∧ c.toNat ≤ 122 := by
  simp [isAsciiLower]

theorem isAsciiUpper_iff {c : Char} :
    isAsciiUpper c = true ↔ 65 ≤ c.toNat ∧ c.toNat ≤ 90 := by
  simp [isAsciiUpper]

theorem isAsciiDigit_iff {c : Char} :
    isAsciiDigit c = true ↔ 48 ≤ c.toNat ∧ c.toNat ≤ 57 := by
  simp [isAsciiDigit]

theorem pyUpperChar_toNat_of_lower {c : Char} (h : isAsciiLower c = true) :
    (pyUpperChar c).toNat = c.toNat - 32 := by
  rw [pyUpperChar, if_pos h]
  have hb := isAsciiLower_iff.mp h
  exact toNat_ofNat_small (by omega)

theorem pyUpperChar_eq_self_of_not_lower {c : Char} (h : isAsciiLower c = false) :
    pyUpperChar c = c := by
  rw [pyUpperChar, if_neg (by simp [h])]

theorem isWsU_toNat {c : Char} (h : isWsU c = true) :
    c.toNat = 32 ∨ c.toNat = 9 ∨ c.toNat = 13 ∨ c.toNat = 10
      ∨ c.toNat = 11 ∨ c.toNat = 12 ∨ c.toNat = 95 := by
  simp only [isWsU, pyIsSpace, Bool.or_eq_true, beq_iff_eq] at h
  rcases h with ((((((rfl | rfl) | rfl) | rfl) | rfl) | rfl) | rfl) <;> decide

theorem pyIsSpace_toNat {c : Char} (h : pyIsSpace c = true) :
    c.toNat = 32 ∨ c.toNat = 9 ∨ c.toNat = 13 ∨ c.toNat = 10
      ∨ c.toNat = 11 ∨ c.toNat = 12 := by
  simp only [pyIsSpace, Bool.or_eq_true, beq_iff_eq] at h
  rcases h with ((((rfl | rfl) | rfl) | rfl) | rfl) | rfl <;> decide

theorem allowedOut_toNat {c : Char} (h : allowedOut c = true) :
    (65 ≤ c.toNat ∧ c.toNat ≤ 90) ∨ (48 ≤ c.toNat ∧ c.toNat ≤ 57)
      ∨ c.toNat = 32 ∨ c.toNat = 45 := by
  simp only [allowedOut, Bool.or_eq_true, beq_iff_eq, isAsciiUpper_iff,
    isAsciiDigit_iff] at h
  rcases h with ((hu | hd) | rfl) | rfl
  · exact Or.inl hu
  · exact Or.inr (Or.inl hd)
  · exact Or.inr (Or.inr (Or.inl rfl))
  · exact Or.inr (Or.inr (Or.inr rfl))

theorem allowedOut_of_toNat {c : Char}
    (h : (65 ≤ c.toNat ∧ c.toNat ≤ 90) ∨ (48 ≤ c.toNat ∧ c.toNat ≤ 57)
      ∨ c.toNat = 32 ∨ c.toNat = 45) : allowedOut c = true := by
  rcases h with hu | hd | h32 | h45
  · simp [allowedOut, isAsciiUpper_iff, hu]
  · simp [allowedOut, isAsciiDigit_iff, hd]
  · have : c = ' ' := charToNat_inj (by rw [h32]; rfl)
    subst this; decide
  · have : c = '-' := charToNat_inj (by rw [h45]; rfl)
    subst this; decide

theorem isWsU_eq_false_of_toNat {c : Char}
    (h : c.toNat ≠ 32 ∧ c.toNat ≠ 9 ∧ c.toNat ≠ 13 ∧ c.toNat ≠ 10
      ∧ c.toNat ≠ 11 ∧ c.toNat ≠ 12 ∧ c.toNat ≠ 95) : isWsU c = false := by
  cases hw : isWsU c
  · rfl
  · have := isWsU_toNat hw
    omega

theorem keepChar_of_allowed {c : Char} (h : allowedOut c = true) :
    keepChar c = true := by
  rcases allowedOut_toNat h with hu | hd | h32 | h45
  · simp [keepChar, isAsciiUpper_iff, hu]
  · simp [keepChar, isAsciiDigit_iff, hd]
  · have : c = ' ' := charToNat_inj (by rw [h32]; rfl)
    subst this; decide
  · have : c = '-' := charToNat_inj (by rw [h45]; rfl)
    subst this; decide

theorem not_lower_of_toNat {c : Char} (h : c.toNat < 97 ∨ 122 < c.toNat) :
    isAsciiLower c = false := by
  cases hl : isAsciiLower c
  · rfl
  · have := isAsciiLower_iff.mp hl
    omega

/-- An allowed whitespace/underscore-class character can only be the
space. -/
theorem allowed_isWsU_space {c : Char} (ha : allowedOut c = true)
    (hw : isWsU c = true) : c = ' ' := by
  have h1 := allowedOut_toNat ha
  have h2 := isWsU_toNat hw
  have h3 : c.toNat = 32 := by omega
  exact charToNat_inj (by rw [h3]; rfl)

theorem isWsU_false_of_allowed_ne_space {c : Char} (ha : allowedOut c = true)
    (hn : c ≠ ' ') : isWsU c = false := by
  have h1 := allowedOut_toNat ha
  have h32 : c.toNat ≠ 32 := fun h => hn (charToNat_inj (by rw [h]; rfl))
  exact isWsU_eq_false_of_toNat (by omega)

theorem pyUpperChar_fix {c : Char} (ha : allowedOut c = true) :
    pyUpperChar c = c := by
  have h1 := allowedOut_toNat ha
  refine pyUpperChar_eq_self_of_not_lower ?_
  cases hl : isAsciiLower c
  · rfl
  · have := isAsciiLower_iff.mp hl
    omega

/-- Upper-casing a kept non-whitespace non-underscore character lands in the
allowed output classes. -/
theorem allowedOut_pyUpperChar {c : Char} (hk : keepChar c = true)
    (hw : isWsU c = false) : allowedOut (pyUpperChar c) = true := by
  simp only [keepChar, Bool.or_eq_true, beq_iff_eq, isAsciiLower_iff,
    isAsciiUpper_iff, isAsciiDigit_iff] at hk
  rcases hk with ((((hl | hu) | hd) | hs) | rfl) | rfl
  · rw [allowedOut_of_toNat]
    left
    rw [pyUpperChar_toNat_of_lower (isAsciiLower_iff.mpr hl)]
    omega
  · rw [pyUpperChar_eq_self_of_not_lower (not_lower_of_toNat (Or.inl (by omega)))]
    exact allowedOut_of_toNat (Or.inl hu)
  · rw [pyUpperChar_eq_self_of_not_lower (not_lower_of_toNat (Or.inl (by omega)))]
    exact allowedOut_of_toNat (Or.inr (Or.inl hd))
  · rw [isWsU, hs] at hw
    simp at hw
  · decide
  · simp [isWsU] at hw

theorem isWsU_pyUpperChar (c : Char) : isWsU (pyUpperChar c) = isWsU c := by
  cases hl : isAsciiLower c
  · rw [pyUpperChar_eq_self_of_not_lower hl]
  · have hb := isAsciiLower_iff.mp hl
    have ht := pyUpperChar_toNat_of_lower hl
    rw [isWsU_eq_false_of_toNat (by omega), isWsU_eq_false_of_toNat (by omega)]

theorem mem_pyStripL {l : List Char} {c : Char} (h : c ∈ pyStripL l) : c ∈ l := by
  unfold pyStripL at h
  rw [List.mem_reverse] at h
  have h2 := (List.dropWhile_suffix _).subset h
  rw [List.mem_reverse] at h2
  exact (List.dropWhile_suffix _).subset h2

/-- Every character of a collapsed list is the emitted space or an original
non-run character. -/
theorem mem_collapseAux {c : Char} :
    ∀ (l : List Char) (b : Bool), c ∈ collapseAux b l →
      c = ' ' ∨ (c ∈ l ∧ isWsU c = false) := by
  intro l
  induction l with
  | nil => intro b h; simp [collapseAux] at h
  | cons a t ih =>
    intro b h
    simp only [collapseAux] at h
    by_cases hw : isWsU a
    · rw [if_pos hw] at h
      by_cases hb : b
      · subst hb
        rcases ih true h with h' | ⟨hm, hwc⟩
        · exact Or.inl h'
        · exact Or.inr ⟨List.mem_cons_of_mem a hm, hwc⟩
      · simp only [Bool.not_eq_true] at hb
        subst hb
        rcases List.mem_cons.mp h with rfl | h'
        · exact Or.inl rfl
        · rcases ih true h' with h'' | ⟨hm, hwc⟩
          · exact Or.inl h''
          · exact Or.inr ⟨List.mem_cons_of_mem a hm, hwc⟩
    · rw [if_neg hw] at h
      rcases List.mem_cons.mp h with rfl | h'
      · exact Or.inr ⟨List.mem_cons_self _ _, by simpa using hw⟩
      · rcases ih false h' with h'' | ⟨hm, hwc⟩
        · exact Or.inl h''
        · exact Or.inr ⟨List.mem_cons_of_mem a hm, hwc⟩

theorem dropWhile_head_false {p : Char → Bool} :
    ∀ (l : List Char) (c : Char), (l.dropWhile p).head? = some c → p c = false := by
  intro l
  induction l with
  | nil => intro c h; simp at h
  | cons a t ih =>
    intro c h
    rw [List.dropWhile_cons] at h
    by_cases hp : p a
    · rw [if_pos hp] at h
      exact ih c h
    · rw [if_neg hp] at h
      simp only [List.head?_cons, Option.some.injEq] at h
      subst h
      simpa using hp

/-- The strip of a list is a prefix of its left-stripped form. -/
theorem pyStripL_prefix_drop (l : List Char) :
    pyStripL l <+: l.dropWhile pyIsSpace := by
  unfold pyStripL
  have h1 : ((l.dropWhile pyIsSpace).reverse.dropWhile pyIsSpace)
      <:+ (l.dropWhile pyIsSpace).reverse := List.dropWhile_suffix _
  have h2 := List.reverse_prefix.mpr h1
  simpa using h2

theorem pyStripL_head {l : List Char} {c : Char}
    (h : (pyStripL l).head? = some c) : pyIsSpace c = false := by
  obtain ⟨t, ht⟩ := pyStripL_prefix_drop l
  cases hx : pyStripL l with
  | nil => rw [hx] at h; exact absurd h (by simp)
  | cons a r =>
    rw [hx] at h ht
    simp only [List.head?_cons, Option.some.injEq] at h
    subst h
    exact dropWhile_head_false l _ (by rw [← ht]; rfl)

theorem pyStripL_last {l : List Char} {c : Char}
    (h : (pyStripL l).getLast? = some c) : pyIsSpace c = false := by
  unfold pyStripL at h
  rw [List.getLast?_reverse] at h
  exact dropWhile_head_false _ c h

/-- Stripping is the identity when neither end is whitespace. -/
theorem pyStripL_eq_self {l : List Char}
    (h1 : ∀ c, l.head? = some c → pyIsSpace c = false)
    (h2 : ∀ c, l.getLast? = some c → pyIsSpace c = false) : pyStripL l = l := by
  unfold pyStripL
  have e1 : l.dropWhile pyIsSpace = l := by
    cases l with
    | nil => rfl
    | cons a t =>
      rw [List.dropWhile_cons, if_neg (by simp [h1 a rfl])]
  rw [e1]
  have e2 : l.reverse.dropWhile pyIsSpace = l.reverse := by
    cases hr : l.reverse with
    | nil => rfl
    | cons a t =>
      have ha : l.getLast? = some a := by
        rw [← List.head?_reverse, hr, List.head?_cons]
      rw [List.dropWhile_cons, if_neg (by simp [h2 a ha])]
  rw [e2, List.reverse_reverse]

/-- After collapsing, no two adjacent characters are both
whitespace/underscore-class; a collapse that starts inside a run begins with
a non-run character. -/
theorem collapseAux_chain (l : List Char) :
    List.Chain' (fun a b => isWsU a = true → isWsU b = false) (collapseAux false l)
    ∧ List.Chain' (fun a b => isWsU a = true → isWsU b = false) (collapseAux true l)
    ∧ (∀ c, (collapseAux true l).head? = some c → isWsU c = false) := by
  induction l with
  | nil => exact ⟨List.chain'_nil, List.chain'_nil, by simp [collapseAux]⟩
  | cons a t ih =>
    by_cases hw : isWsU a
    · refine ⟨?_, ?_, ?_⟩
      · show List.Chain' _ (collapseAux false (a :: t))
        simp only [collapseAux, if_pos hw]
        exact List.chain'_cons'.mpr ⟨fun y hy => fun _ => ih.2.2 y hy, ih.2.1⟩
      · show List.Chain' _ (collapseAux true (a :: t))
        simp only [collapseAux, if_pos hw]
        exact ih.2.1
      · intro c hc
        simp only [collapseAux, if_pos hw] at hc
        exact ih.2.2 c hc
    · refine ⟨?_, ?_, ?_⟩
      · show List.Chain' _ (collapseAux false (a :: t))
        simp only [collapseAux, if_neg hw]
        exact List.chain'_cons'.mpr
          ⟨fun y _ => fun h' => absurd h' (by simp [hw]), ih.1⟩
      · show List.Chain' _ (collapseAux true (a :: t))
        simp only [collapseAux, if_neg hw]
        exact List.chain'_cons'.mpr
          ⟨fun y _ => fun h' => absurd h' (by simp [hw]), ih.1⟩
      · intro c hc
        simp only [collapseAux, if_neg hw, List.head?_cons,
          Option.some.injEq] at hc
        subst hc
        simpa using hw

theorem chain_map_pyUpper {l : List Char}
    (h : List.Chain' (fun a b => isWsU a = true → isWsU b = false) l) :
    List.Chain' (fun a b => isWsU a = true → isWsU b = false)
      (l.map pyUpperChar) := by
  rw [List.chain'_map]
  refine h.imp ?_
  intro a b hab h'
  rw [isWsU_pyUpperChar] at h'
  rw [isWsU_pyUpperChar]
  exact hab h'

theorem chain_pyStripL {l : List Char}
    (h : List.Chain' (fun a b => isWsU a = true → isWsU b = false) l) :
    List.Chain' (fun a b => isWsU a = true → isWsU b = false) (pyStripL l) := by
  have h1 : pyStripL l <+: l.dropWhile pyIsSpace := pyStripL_prefix_drop l
  have h2 : l.dropWhile pyIsSpace <:+ l := List.dropWhile_suffix _
  have h3 : pyStripL l <:+: l :=
    List.IsInfix.trans ( List.IsPrefix.isInfix h1) ( List.IsSuffix.isInfix h2)
  exact List.Chain'.infix h h3

/-- Collapsing is the identity on lists of allowed characters with no two
adjacent whitespace-class characters (and, started inside a run, when the
head is not whitespace-class). -/
theorem collapse_id :
    ∀ (l : List Char), (∀ c ∈ l, allowedOut c = true) →
    List.Chain' (fun a b => isWsU a = true → isWsU b = false) l →
    (collapseAux false l = l
      ∧ ((∀ c, l.head? = some c → isWsU c = false) → collapseAux true l = l)) := by
  intro l
  induction l with
  | nil => exact fun _ _ => ⟨rfl, fun _ => rfl⟩
  | cons a t ih =>
    intro hall hch
    obtain ⟨hhead, htail⟩ := List.chain'_cons'.mp hch
    have iht := ih (fun c hc => hall c (List.mem_cons_of_mem a hc)) htail
    constructor
    · by_cases hw : isWsU a
      · have ha : a = ' ' := allowed_isWsU_space (hall a (List.mem_cons_self _ _)) hw
        simp only [collapseAux, if_pos hw, Bool.false_eq_true, if_false]
        rw [iht.2 (fun c hc => hhead c hc hw), ha]
      · simp only [collapseAux, if_neg hw]
        rw [iht.1]
    · intro hhd
      have hwa : isWsU a = false := hhd a rfl
      simp only [collapseAux, hwa, Bool.false_eq_true, if_false]
      rw [iht.1]

theorem map_pyUpper_id {l : List Char} (hall : ∀ c ∈ l, allowedOut c = true) :
    l.map pyUpperChar = l := by
  induction l with
  | nil => rfl
  | cons a t ih =>
    rw [List.map_cons, pyUpperChar_fix (hall a (List.mem_cons_self _ _)),
      ih (fun c hc => hall c (List.mem_cons_of_mem a hc))]

/-- Every character of a cleaned identifier is an allowed output
character. -/
theorem cleanIdStr_allowed (s : String) :
    ∀ c ∈ (cleanIdStr s).data, allowedOut c = true := by
  intro c hc
  have h1 : c ∈ (collapseWsU ((pyStripL s.data).filter keepChar)).map pyUpperChar :=
    mem_pyStripL hc
  obtain ⟨d, hd, rfl⟩ := List.mem_map.mp h1
  rcases mem_collapseAux _ _ hd with rfl | ⟨hm, hwc⟩
  · decide
  · have hk := (List.mem_filter.mp hm).2
    exact allowedOut_pyUpperChar hk hwc

theorem cleanIdStr_chain (s : String) :
    List.Chain' (fun a b => isWsU a = true → isWsU b = false)
      (cleanIdStr s).data :=
  chain_pyStripL (chain_map_pyUpper (collapseAux_chain _).1)

/-- `clean_id` is idempotent on strings: its output is already in normal
form, so every stage acts as the identity on a second pass. -/
theorem cleanIdStr_idem (s : String) :
    cleanIdStr (cleanIdStr s) = cleanIdStr s := by
  have hall := cleanIdStr_allowed s
  have hch := cleanIdStr_chain s
  have hlast : ∀ c, ((cleanIdStr s).data).getLast? = some c → pyIsSpace c = false :=
    fun c hc => pyStripL_last hc
  have hhd2 : ∀ c, ((cleanIdStr s).data).head? = some c → pyIsSpace c = false :=
    fun c hc => pyStripL_head hc
  have e1 : pyStripL (cleanIdStr s).data = (cleanIdStr s).data :=
    pyStripL_eq_self hhd2 hlast
  have e2 : ((cleanIdStr s).data).filter keepChar = (cleanIdStr s).data :=
    List.filter_eq_self.mpr (fun a ha => keepChar_of_allowed (hall a ha))
  have e3 : collapseWsU (cleanIdStr s).data = (cleanIdStr s).data :=
    (collapse_id _ hall hch).1
  have e4 : ((cleanIdStr s).data).map pyUpperChar = (cleanIdStr s).data :=
    map_pyUpper_id hall
  show (⟨pyStripL ((collapseWsU ((pyStripL (cleanIdStr s).data).filter
      keepChar)).map pyUpperChar)⟩ : String) = cleanIdStr s
  rw [e1, e2, e3, e4, e1]

/-- C7: every character of a cleaned identifier is an uppercase ASCII
letter, a digit, a space, or a hyphen (underscore runs having been collapsed
to spaces), and `clean_id` is idempotent. -/
theorem c7_clean_identifier :
    (∀ (x : Cell), ∀ ch ∈ (cleanId x).data,
      isAsciiUpper ch = true ∨ isAsciiDigit ch = true ∨ ch = ' ' ∨ ch = '-')
    ∧ (∀ x : Cell, cleanId (Cell.str (cleanId x)) = cleanId x) := by
  constructor
  · intro x ch hch
    cases x with
    | na => simp [cleanId] at hch
    | str s =>
      have h := cleanIdStr_allowed s ch hch
      simpa [allowedOut, Bool.or_eq_true, beq_iff_eq, or_assoc] using h
  · intro x
    cases x with
    | na => decide
    | str s => exact cleanIdStr_idem s

/-- C7 witness: on input `"ab_c"` the first output character `'A'` is in the
allowed classes. -/
theorem c7_clean_identifier_witness :
    isAsciiUpper 'A' = true ∨ isAsciiDigit 'A' = true ∨ 'A' = ' ' ∨ 'A' = '-' :=
  c7_clean_identifier.1 (Cell.str "ab_c") 'A' (by decide)

end ETL
